import Mathlib

/-!
Shallow embedding of `pyreshaper/specification.py`: the `Specifier` base
class, the `Slice2SeriesSpecifier` concrete class and the
`create_specifier` factory, together with proofs of the specification's
claims about them.

Python values that can sit in a specifier field are modelled by `PyVal`
(strings, lists, and a non-string non-list representative).  Exceptions
are modelled by `PyErr`.  The filesystem facts the module queries through
`os.path` (`isfile`, `isdir`, `abspath`, `dirname`) are a parameter
`FileSystem`, since the module only ever observes them.  Field mutation is
modelled by explicit state passing: a method that can both mutate `self`
and raise returns `Slice2SeriesSpecifier × Option PyErr`, the state at the
moment the method returns or the exception escapes.
-/

/-- A Python value as far as `specification.py` distinguishes them: a
string, a list of values, or some other object (an int stands in for every
non-string non-list value; the module never looks inside such a value). -/
inductive PyVal where
  | str (s : String)
  | list (l : List PyVal)
  | int (n : Int)

/-- `isinstance(v, str)`. -/
def PyVal.isStr : PyVal → Bool
  | .str _ => true
  | _ => false

/-- `v` is a list and every element is a string. -/
def PyVal.isStrList : PyVal → Bool
  | .list l => l.all PyVal.isStr
  | _ => false

/-- The string a `PyVal.str` holds.  The default for non-strings is never
reached through `validate()`: type checks run before every use below. -/
def PyVal.strVal : PyVal → String
  | .str s => s
  | _ => ""

/-- Python `str(v)`, to the precision the error messages below need: on a
string it is the string itself; the rendering of other values is not
constrained by any claim. -/
def PyVal.pystr : PyVal → String
  | .str s => s
  | .int n => toString n
  | .list _ => "[...]"

/-- A raised Python exception: `TypeError` or `ValueError` with its message. -/
inductive PyErr where
  | typeError (msg : String)
  | valueError (msg : String)
deriving DecidableEq

/-- The filesystem facts and path arithmetic `specification.py` reads
through `os.path`: `isfile`, `isdir`, `abspath` (resolution against the
current working directory) and `dirname`.  The module only queries these,
so they are a parameter of the embedding. -/
structure FileSystem where
  isfile : String → Bool
  isdir : String → Bool
  abspath : String → String
  dirname : String → String

/-- `os.path.abspath` is idempotent: the absolute form of an already
absolute, normalized path is itself.  Stated as a property of the abstract
`FileSystem` so theorems that need it (idempotence of `validate`) can
assume it. -/
def FileSystem.AbspathIdem (fs : FileSystem) : Prop :=
  ∀ p, fs.abspath (fs.abspath p) = fs.abspath p

/-- The attribute record of a `Slice2SeriesSpecifier` object.  The base
class `Specifier` contributes `specifier_type`, `input_file_list` and
`netcdf_format`; the derived class adds the other three.  (There is a
single concrete class, so one record models every object of the module.) -/
structure Slice2SeriesSpecifier where
  specifier_type : String
  input_file_list : PyVal
  netcdf_format : PyVal
  output_file_prefix : PyVal
  output_file_suffix : PyVal
  time_variant_metadata : PyVal

/-- Embeds `Specifier.__init__` (specification.py lines 56-75), run on the
object's current attributes: it sets `specifier_type` to `'undetermined'`,
then stores the input file list and the format string. -/
def Specifier.init (self : Slice2SeriesSpecifier) (infiles ncfmt : PyVal) :
    Slice2SeriesSpecifier :=
  { self with
      specifier_type := "undetermined"
      input_file_list := infiles
      netcdf_format := ncfmt }

/-- Embeds `Slice2SeriesSpecifier.__init__` (lines 159-200).  Line 183
first sets `specifier_type = 'slice-to-series'`; lines 186-187 then call
`Specifier.__init__`, which overwrites that field with `'undetermined'`
(line 67); lines 189-200 finally store the prefix, suffix and metadata
arguments.  The record passed to `Specifier.init` is the object after
line 183 (the derived fields are written only after the base call; their
slots before it are never read, so their start value is irrelevant). -/
def Slice2SeriesSpecifier.init (infiles ncfmt pfx sfx metadata : PyVal) :
    Slice2SeriesSpecifier :=
  let afterBase :=
    Specifier.init
      { specifier_type := "slice-to-series"
        input_file_list := infiles
        netcdf_format := ncfmt
        output_file_prefix := pfx
        output_file_suffix := sfx
        time_variant_metadata := metadata }
      infiles ncfmt
  { afterBase with
      output_file_prefix := pfx
      output_file_suffix := sfx
      time_variant_metadata := metadata }

/-- The keyword arguments `create_specifier` forwards to
`Slice2SeriesSpecifier.__init__`: each of the constructor's five keyword
parameters, present or absent.  (Passing a keyword the constructor does
not accept is a call-shape error of the Python language, outside this
embedding.) -/
structure SpecKwargs where
  infiles : Option PyVal := none
  ncfmt : Option PyVal := none
  pfx : Option PyVal := none
  suffix : Option PyVal := none
  metadata : Option PyVal := none

/-- Embeds the factory `create_specifier` (lines 17-40): a non-string
`spec_type` raises `TypeError`; the string `'slice-to-series'` constructs a
`Slice2SeriesSpecifier` from the forwarded keywords (absent keywords take
the constructor's defaults, lines 159-164); any other string raises
`ValueError`. -/
def create_specifier (spec_type : PyVal) (kwargs : SpecKwargs) :
    Except PyErr Slice2SeriesSpecifier :=
  match spec_type with
  | .str s =>
    if s = "slice-to-series" then
      .ok (Slice2SeriesSpecifier.init
        (kwargs.infiles.getD (PyVal.list []))
        (kwargs.ncfmt.getD (PyVal.str "netcdf4c"))
        (kwargs.pfx.getD (PyVal.str "tseries."))
        (kwargs.suffix.getD (PyVal.str ".nc"))
        (kwargs.metadata.getD (PyVal.list [])))
    else
      .error (.valueError ("Specifier of type " ++ s ++ " is not defined."))
  | _ => .error (.typeError "Specification type must be given as a string.")

/-- Embeds `Specifier.validate_types` (lines 88-108): `input_file_list`
must be a list, each element a string, and `netcdf_format` a string, the
checks in that order; the first violation raises `TypeError`. -/
def Specifier.validate_types (self : Slice2SeriesSpecifier) : Option PyErr :=
  match self.input_file_list with
  | .list files =>
    if files.all PyVal.isStr then
      if (self.netcdf_format).isStr then none
      else some (.typeError "NetCDF format must be given as a string")
    else some (.typeError "Input file names must be given as strings")
  | _ => some (.typeError "Input file list must be a list")

/-- Embeds `Slice2SeriesSpecifier.validate_types` (lines 202-232): the
base checks first, then `output_file_prefix` and `output_file_suffix` must
be strings and `time_variant_metadata` a list of strings.  (The message
for a non-list metadata field repeats the input-list message, as in the
source.) -/
def Slice2SeriesSpecifier.validate_types (self : Slice2SeriesSpecifier) :
    Option PyErr :=
  match Specifier.validate_types self with
  | some e => some e
  | none =>
    if !(self.output_file_prefix).isStr then
      some (.typeError "Output file prefix must be given as a string")
    else if !(self.output_file_suffix).isStr then
      some (.typeError "Output file suffix must be given as a string")
    else
      match self.time_variant_metadata with
      | .list vars =>
        if vars.all PyVal.isStr then none
        else some (.typeError
          "Time-variant metadata variable names must be given as strings")
      | _ => some (.typeError "Input file list must be a list")

/-- `valid_formats` (line 136): the three admissible format strings. -/
def valid_formats : List String :=
  ["netcdf", "netcdf4", "netcdf4c"]

/-- Embeds `Specifier.validate_values` (lines 110-140): the input list
must be non-empty, every listed file must exist as a regular file (the
first missing one is named in the `ValueError`), and `netcdf_format` must
be one of `valid_formats`.  `validate()` only reaches this after the type
checks, so the non-list branch (where Python's `len` would itself raise)
is unreachable from `validate`. -/
def Specifier.validate_values (fs : FileSystem) (self : Slice2SeriesSpecifier) :
    Option PyErr :=
  match self.input_file_list with
  | .list files =>
    if files.length = 0 then
      some (.valueError "There must be at least one input file given.")
    else
      match files.find? (fun f => !fs.isfile f.strVal) with
      | some f => some (.valueError
          ("Input file " ++ f.pystr ++ " is not a regular file"))
      | none =>
        match self.netcdf_format with
        | .str fmt =>
          if valid_formats.contains fmt then none
          else some (.valueError
            ("Output NetCDF file format " ++ fmt ++ " is not valid"))
        | other =>
          -- a non-string is equal to no element of a list of strings, so
          -- Python's `not in valid_formats` holds and the error is raised
          some (.valueError
            ("Output NetCDF file format " ++ other.pystr ++ " is not valid"))
  | _ => some (.typeError "object has no len()")

/-- Python `s[-3:]`: the last three characters of `s`, or all of `s` when
it is shorter (`List.drop` with truncated subtraction matches the clamping
of a negative slice start). -/
def lastThree (s : String) : String :=
  String.mk (s.data.drop (s.data.length - 3))

/-- Embeds `Slice2SeriesSpecifier.validate_values` (lines 234-264): the
base value checks first; then the output directory implied by the prefix
is checked (`abspath` then `dirname` then `isdir`, raising `ValueError` if
absent) and, only after that check passes, the prefix field is rewritten
to its absolute form; finally `'.nc'` is appended to the suffix field
unless its last three characters are already `'.nc'`.  Returns the object
state together with the exception, if one escaped. -/
def Slice2SeriesSpecifier.validate_values (fs : FileSystem)
    (self : Slice2SeriesSpecifier) :
    Slice2SeriesSpecifier × Option PyErr :=
  match Specifier.validate_values fs self with
  | some e => (self, some e)
  | none =>
    let abs_output_prefix := fs.abspath (self.output_file_prefix).strVal
    let abs_output_dir := fs.dirname abs_output_prefix
    if !fs.isdir abs_output_dir then
      (self, some (.valueError
        ("Output directory " ++ abs_output_dir ++
          " implied in output prefix " ++ (self.output_file_prefix).pystr ++
          " is not valid")))
    else
      let self1 := { self with output_file_prefix := PyVal.str abs_output_prefix }
      if lastThree (self1.output_file_suffix).strVal ≠ ".nc" then
        ({ self1 with
            output_file_suffix :=
              PyVal.str ((self1.output_file_suffix).strVal ++ ".nc") }, none)
      else (self1, none)

/-- Embeds `Specifier.validate` (lines 77-86) as inherited by
`Slice2SeriesSpecifier`: run the type checks, then the value checks. -/
def Slice2SeriesSpecifier.validate (fs : FileSystem)
    (self : Slice2SeriesSpecifier) : Slice2SeriesSpecifier × Option PyErr :=
  match Slice2SeriesSpecifier.validate_types self with
  | some e => (self, some e)
  | none => Slice2SeriesSpecifier.validate_values fs self

/-- The specification's "ends in the literal substring `.nc`": the three
characters `.nc` are a suffix of the string's characters. -/
def endsDotNc (s : String) : Prop :=
  (String.data ".nc") <:+ s.data

instance (s : String) : Decidable (endsDotNc s) := by
  unfold endsDotNc
  infer_instance

/-- Dropping all but the last three elements yields `t` (of length 3)
exactly when `t` is a suffix. -/
lemma drop_sub_three_eq_iff {α : Type} (l t : List α) (h3 : t.length = 3) :
    l.drop (l.length - 3) = t ↔ t <:+ l := by
  constructor
  · intro h
    exact h ▸ List.drop_suffix _ l
  · rintro ⟨u, rfl⟩
    have hlen : (u ++ t).length - 3 = u.length := by
      simp [List.length_append, h3]
    rw [hlen, List.drop_left]

/-- Python's test `s[-3:] == '.nc'` is exactly "`s` ends in `.nc`". -/
lemma lastThree_eq_nc_iff (s : String) : lastThree s = ".nc" ↔ endsDotNc s := by
  unfold lastThree endsDotNc
  rw [String.ext_iff]
  exact drop_sub_three_eq_iff s.data (String.data ".nc") rfl

/-- Appending `.nc` always produces a string that ends in `.nc`. -/
lemma endsDotNc_append (s : String) : endsDotNc (s ++ ".nc") := by
  unfold endsDotNc
  exact ⟨s.data, (String.data_append s ".nc").symm⟩

/-- All six type conditions `validate()` checks, as one test: the input
list is a list of strings, the format, prefix and suffix are strings, and
the metadata field is a list of strings. -/
def hasValidTypes (s : Slice2SeriesSpecifier) : Bool :=
  (s.input_file_list).isStrList && (s.netcdf_format).isStr &&
    (s.output_file_prefix).isStr && (s.output_file_suffix).isStr &&
    (s.time_variant_metadata).isStrList

/-- The base type check passes exactly when the input list is a list of
strings and the format is a string. -/
lemma base_validate_types_none_iff (s : Slice2SeriesSpecifier) :
    Specifier.validate_types s = none ↔
      ((s.input_file_list).isStrList && (s.netcdf_format).isStr) = true := by
  unfold Specifier.validate_types
  cases h : s.input_file_list with
  | str v => simp [h, PyVal.isStrList]
  | int n => simp [h, PyVal.isStrList]
  | list files =>
    by_cases hall : files.all PyVal.isStr = true
    · by_cases hfmt : (s.netcdf_format).isStr = true
      · simp [h, PyVal.isStrList, hall, hfmt]
      · simp [h, PyVal.isStrList, hall, hfmt]
    · simp [h, PyVal.isStrList, hall]

/-- The full type check passes exactly when all six type conditions hold. -/
lemma validate_types_none_iff (s : Slice2SeriesSpecifier) :
    Slice2SeriesSpecifier.validate_types s = none ↔ hasValidTypes s = true := by
  unfold Slice2SeriesSpecifier.validate_types hasValidTypes
  cases hbase : Specifier.validate_types s with
  | some e =>
    have hb : ¬((s.input_file_list).isStrList = true ∧ (s.netcdf_format).isStr = true) := by
      intro hx
      have hnone := (base_validate_types_none_iff s).mpr (by simp [hx.1, hx.2])
      rw [hbase] at hnone
      exact Option.noConfusion hnone
    simp only [Bool.and_eq_true]
    constructor
    · intro hc
      exact (Option.some_ne_none e hc).elim
    · intro hr
      exact absurd hr.1.1.1 hb
  | none =>
    have hb : ((s.input_file_list).isStrList && (s.netcdf_format).isStr) = true :=
      (base_validate_types_none_iff s).mp hbase
    simp only [hb, Bool.true_and]
    by_cases hpfx : (s.output_file_prefix).isStr = true
    · by_cases hsfx : (s.output_file_suffix).isStr = true
      · cases hmd : s.time_variant_metadata with
        | list vars =>
          by_cases hv : vars.all PyVal.isStr = true
          · simp [hpfx, hsfx, hmd, hv, PyVal.isStrList]
          · simp [hpfx, hsfx, hmd, hv, PyVal.isStrList]
        | str v => simp [hpfx, hsfx, hmd, PyVal.isStrList]
        | int n => simp [hpfx, hsfx, hmd, PyVal.isStrList]
      · simp [hpfx, hsfx]
    · simp [hpfx]

/-- The type-check phase either passes or raises a `TypeError`. -/
lemma validate_types_cases (s : Slice2SeriesSpecifier) :
    Slice2SeriesSpecifier.validate_types s = none ∨
      ∃ m, Slice2SeriesSpecifier.validate_types s = some (PyErr.typeError m) := by
  unfold Slice2SeriesSpecifier.validate_types Specifier.validate_types
  cases h : s.input_file_list with
  | str v => exact Or.inr ⟨_, rfl⟩
  | int n => exact Or.inr ⟨_, rfl⟩
  | list files =>
    by_cases hall : files.all PyVal.isStr = true
    · by_cases hfmt : (s.netcdf_format).isStr = true
      · simp only [hall, hfmt, if_true]
        by_cases hpfx : (s.output_file_prefix).isStr = true
        · by_cases hsfx : (s.output_file_suffix).isStr = true
          · simp only [hpfx, hsfx, Bool.not_true, Bool.false_eq_true, if_false]
            cases hmd : s.time_variant_metadata with
            | list vars =>
              by_cases hv : vars.all PyVal.isStr = true
              · simp [hv]
              · simp [hv]
            | str w => exact Or.inr ⟨_, rfl⟩
            | int n => exact Or.inr ⟨_, rfl⟩
          · simp [hpfx, hsfx]
        · simp [hpfx]
      · simp [hall, hfmt]
    · simp [hall]

/-- A list of `PyVal`s is all strings exactly when it is the image of a
list of strings. -/
lemma all_isStr_iff (l : List PyVal) :
    l.all PyVal.isStr = true ↔ ∃ strs : List String, l = List.map PyVal.str strs := by
  induction l with
  | nil =>
    constructor
    · intro _
      exact ⟨[], rfl⟩
    · intro _
      rfl
  | cons x xs ih =>
    constructor
    · intro h
      rw [List.all_cons, Bool.and_eq_true] at h
      obtain ⟨strs, rfl⟩ := ih.mp h.2
      cases x with
      | str t => exact ⟨t :: strs, rfl⟩
      | list l => exact absurd h.1 (by simp [PyVal.isStr])
      | int n => exact absurd h.1 (by simp [PyVal.isStr])
    · rintro ⟨strs, hEq⟩
      cases strs with
      | nil => exact absurd hEq (by simp)
      | cons t ts =>
        rw [List.map_cons] at hEq
        cases hEq
        rw [List.all_cons, Bool.and_eq_true]
        exact ⟨rfl, ih.mpr ⟨ts, rfl⟩⟩

/-- `isStrList` holds exactly of images of string lists. -/
lemma isStrList_iff (v : PyVal) :
    v.isStrList = true ↔ ∃ strs : List String, v = PyVal.list (List.map PyVal.str strs) := by
  cases v with
  | list l =>
    rw [show (PyVal.list l).isStrList = l.all PyVal.isStr from rfl, all_isStr_iff]
    constructor
    · rintro ⟨strs, rfl⟩
      exact ⟨strs, rfl⟩
    · rintro ⟨strs, hEq⟩
      cases hEq
      exact ⟨strs, rfl⟩
  | str t => simp [PyVal.isStrList]
  | int n => simp [PyVal.isStrList]

/-- Closed form of the base value check on a type-checked object: empty
list first, then the first missing file, then the format tag. -/
lemma base_validate_values_eq (fs : FileSystem) (s : Slice2SeriesSpecifier)
    (files : List String) (fmt : String)
    (hil : s.input_file_list = PyVal.list (List.map PyVal.str files))
    (hfmt : s.netcdf_format = PyVal.str fmt) :
    Specifier.validate_values fs s =
      if files = [] then
        some (.valueError "There must be at least one input file given.")
      else
        match files.find? (fun f => !fs.isfile f) with
        | some f =>
          some (.valueError ("Input file " ++ f ++ " is not a regular file"))
        | none =>
          if valid_formats.contains fmt then none
          else some (.valueError
            ("Output NetCDF file format " ++ fmt ++ " is not valid")) := by
  unfold Specifier.validate_values
  simp only [hil, hfmt, List.length_map, List.length_eq_zero, List.find?_map]
  by_cases h0 : files = []
  · simp [h0]
  · simp only [h0, if_false]
    have hpred : ((fun f => !fs.isfile f.strVal) ∘ PyVal.str) = fun f => !fs.isfile f := rfl
    rw [hpred]
    cases hf : files.find? (fun f => !fs.isfile f) with
    | some f => simp [PyVal.pystr]
    | none => simp

/-- Updating `output_file_prefix` with the value it already holds changes
nothing. -/
lemma update_prefix_self (s : Slice2SeriesSpecifier) (v : PyVal)
    (h : s.output_file_prefix = v) :
    { s with output_file_prefix := v } = s := by
  cases s
  cases h
  rfl

/-- Closed form of the derived value check on a type-checked object: base
value checks, then the directory check with the prefix rewrite, then the
suffix fixup. -/
lemma validate_values_eq (fs : FileSystem) (s : Slice2SeriesSpecifier)
    (pfx sfx : String)
    (hpfx : s.output_file_prefix = PyVal.str pfx)
    (hsfx : s.output_file_suffix = PyVal.str sfx) :
    Slice2SeriesSpecifier.validate_values fs s =
      match Specifier.validate_values fs s with
      | some e => (s, some e)
      | none =>
        if fs.isdir (fs.dirname (fs.abspath pfx)) then
          ({ s with
              output_file_prefix := PyVal.str (fs.abspath pfx)
              output_file_suffix :=
                PyVal.str (if lastThree sfx = ".nc" then sfx else sfx ++ ".nc") },
            none)
        else
          (s, some (.valueError
            ("Output directory " ++ fs.dirname (fs.abspath pfx) ++
              " implied in output prefix " ++ pfx ++ " is not valid"))) := by
  unfold Slice2SeriesSpecifier.validate_values
  cases hb : Specifier.validate_values fs s with
  | some e => rfl
  | none =>
    simp only [hpfx, hsfx, PyVal.strVal, PyVal.pystr]
    by_cases hdir : fs.isdir (fs.dirname (fs.abspath pfx)) = true
    · simp only [hdir, Bool.not_true, Bool.false_eq_true, if_false, if_true]
      by_cases hnc : lastThree sfx = ".nc"
      · rw [if_neg (show ¬(lastThree sfx ≠ ".nc") from by simp [hnc]), hnc,
          if_pos rfl, ← hsfx]
      · rw [if_pos hnc, if_neg hnc]
    · simp [hdir]

/-- A value passes `isinstance(v, str)` exactly when it is some string. -/
lemma isStr_iff (v : PyVal) : v.isStr = true ↔ ∃ t, v = PyVal.str t := by
  cases v <;> simp [PyVal.isStr]

/-- Membership in `valid_formats`, through the boolean `contains`. -/
lemma valid_formats_contains_iff (fmt : String) :
    valid_formats.contains fmt = true ↔ fmt ∈ valid_formats := by
  exact List.elem_iff

/-- The six type conditions hold when every field has the declared shape. -/
lemma hasValidTypes_of_proj (s : Slice2SeriesSpecifier)
    (files : List String) (fmt pfx sfx : String) (md : List String)
    (hil : s.input_file_list = PyVal.list (List.map PyVal.str files))
    (hfmt : s.netcdf_format = PyVal.str fmt)
    (hpfx : s.output_file_prefix = PyVal.str pfx)
    (hsfx : s.output_file_suffix = PyVal.str sfx)
    (hmd : s.time_variant_metadata = PyVal.list (List.map PyVal.str md)) :
    hasValidTypes s = true := by
  have h1 : (PyVal.list (List.map PyVal.str files)).isStrList = true :=
    (isStrList_iff _).mpr ⟨files, rfl⟩
  have h5 : (PyVal.list (List.map PyVal.str md)).isStrList = true :=
    (isStrList_iff _).mpr ⟨md, rfl⟩
  unfold hasValidTypes
  rw [hil, hfmt, hpfx, hsfx, hmd]
  simp [h1, h5, PyVal.isStr]

/-- Conversely, when the six type conditions hold every field has the
declared shape. -/
lemma proj_of_hasValidTypes (s : Slice2SeriesSpecifier)
    (ht : hasValidTypes s = true) :
    ∃ (files : List String) (fmt pfx sfx : String) (md : List String),
      s.input_file_list = PyVal.list (List.map PyVal.str files) ∧
      s.netcdf_format = PyVal.str fmt ∧
      s.output_file_prefix = PyVal.str pfx ∧
      s.output_file_suffix = PyVal.str sfx ∧
      s.time_variant_metadata = PyVal.list (List.map PyVal.str md) := by
  unfold hasValidTypes at ht
  simp only [Bool.and_eq_true] at ht
  obtain ⟨⟨⟨⟨h1, h2⟩, h3⟩, h4⟩, h5⟩ := ht
  obtain ⟨files, hil⟩ := (isStrList_iff _).mp h1
  obtain ⟨fmt, hfmt⟩ := (isStr_iff _).mp h2
  obtain ⟨pfx, hpfx⟩ := (isStr_iff _).mp h3
  obtain ⟨sfx, hsfx⟩ := (isStr_iff _).mp h4
  obtain ⟨md, hmd⟩ := (isStrList_iff _).mp h5
  exact ⟨files, fmt, pfx, sfx, md, hil, hfmt, hpfx, hsfx, hmd⟩

/-- The base value check passes exactly when the input list is non-empty,
every listed file exists, and the format tag is admissible. -/
lemma base_values_none_iff (fs : FileSystem) (s : Slice2SeriesSpecifier)
    (files : List String) (fmt : String)
    (hil : s.input_file_list = PyVal.list (List.map PyVal.str files))
    (hfmt : s.netcdf_format = PyVal.str fmt) :
    Specifier.validate_values fs s = none ↔
      files ≠ [] ∧ (∀ f ∈ files, fs.isfile f = true) ∧
        valid_formats.contains fmt = true := by
  rw [base_validate_values_eq fs s files fmt hil hfmt]
  by_cases h0 : files = []
  · simp [h0]
  · simp only [h0, if_false, ne_eq, not_false_iff, true_and]
    cases hf : files.find? (fun f => !fs.isfile f) with
    | some f =>
      have hmem := List.mem_of_find?_eq_some hf
      have hpf : fs.isfile f = false := by
        have := List.find?_some hf
        simpa using this
      constructor
      · intro hc
        exact Option.noConfusion hc
      · rintro ⟨hall, -⟩
        rw [hall f hmem] at hpf
        exact Bool.noConfusion hpf
    | none =>
      have hall : ∀ f ∈ files, fs.isfile f = true := by
        intro f hfm
        have := List.find?_eq_none.mp hf f hfm
        simpa using this
      by_cases hc : valid_formats.contains fmt = true
      · simp only [hc, if_true, and_true]
        exact iff_of_true trivial hall
      · rw [if_neg hc]
        constructor
        · intro hco
          exact Option.noConfusion hco
        · rintro ⟨-, hcm⟩
          exact absurd hcm hc

/-- The state a successful `validate()` produces from prefix `pfx` and
suffix `sfx`: the prefix made absolute and the suffix extended with `.nc`
unless it already ends so. -/
def normalized (fs : FileSystem) (s : Slice2SeriesSpecifier)
    (pfx sfx : String) : Slice2SeriesSpecifier :=
  { s with
      output_file_prefix := PyVal.str (fs.abspath pfx)
      output_file_suffix :=
        PyVal.str (if lastThree sfx = ".nc" then sfx else sfx ++ ".nc") }

/-- Full characterization of a successful `validate()`: it succeeds
exactly on well-typed objects whose file list is non-empty and names only
existing files, whose format tag is admissible, and whose prefix implies
an existing directory; the final state normalizes the prefix and suffix
and changes nothing else. -/
lemma validate_ok_iff (fs : FileSystem) (s s' : Slice2SeriesSpecifier) :
    Slice2SeriesSpecifier.validate fs s = (s', none) ↔
      ∃ (files : List String) (fmt pfx sfx : String) (md : List String),
        s.input_file_list = PyVal.list (List.map PyVal.str files) ∧
        s.netcdf_format = PyVal.str fmt ∧
        s.output_file_prefix = PyVal.str pfx ∧
        s.output_file_suffix = PyVal.str sfx ∧
        s.time_variant_metadata = PyVal.list (List.map PyVal.str md) ∧
        files ≠ [] ∧ (∀ f ∈ files, fs.isfile f = true) ∧
        valid_formats.contains fmt = true ∧
        fs.isdir (fs.dirname (fs.abspath pfx)) = true ∧
        s' = normalized fs s pfx sfx := by
  constructor
  · intro h
    unfold Slice2SeriesSpecifier.validate at h
    cases ht : Slice2SeriesSpecifier.validate_types s with
    | some e =>
      rw [ht] at h
      have h2 : some e = none := congrArg Prod.snd h
      exact Option.noConfusion h2
    | none =>
      rw [ht] at h
      obtain ⟨files, fmt, pfx, sfx, md, hil, hfmt, hpfx, hsfx, hmd⟩ :=
        proj_of_hasValidTypes s ((validate_types_none_iff s).mp ht)
      rw [validate_values_eq fs s pfx sfx hpfx hsfx] at h
      cases hbv : Specifier.validate_values fs s with
      | some e =>
        rw [hbv] at h
        have h2 : some e = none := congrArg Prod.snd h
        exact Option.noConfusion h2
      | none =>
        rw [hbv] at h
        obtain ⟨h0, hall, hc⟩ := (base_values_none_iff fs s files fmt hil hfmt).mp hbv
        by_cases hdir : fs.isdir (fs.dirname (fs.abspath pfx)) = true
        · rw [if_pos hdir] at h
          have hs' : normalized fs s pfx sfx = s' := congrArg Prod.fst h
          exact ⟨files, fmt, pfx, sfx, md, hil, hfmt, hpfx, hsfx, hmd,
            h0, hall, hc, hdir, hs'.symm⟩
        · rw [if_neg hdir] at h
          have h2 : some (PyErr.valueError
              ("Output directory " ++ fs.dirname (fs.abspath pfx) ++
                " implied in output prefix " ++ pfx ++ " is not valid")) = none :=
            congrArg Prod.snd h
          exact Option.noConfusion h2
  · rintro ⟨files, fmt, pfx, sfx, md, hil, hfmt, hpfx, hsfx, hmd,
      h0, hall, hc, hdir, rfl⟩
    unfold Slice2SeriesSpecifier.validate
    rw [(validate_types_none_iff s).mpr
      (hasValidTypes_of_proj s files fmt pfx sfx md hil hfmt hpfx hsfx hmd)]
    rw [validate_values_eq fs s pfx sfx hpfx hsfx]
    rw [(base_values_none_iff fs s files fmt hil hfmt).mpr ⟨h0, hall, hc⟩]
    simp [hdir, normalized]

/-- Every exception the base value check raises on a type-checked object
is a `ValueError`. -/
lemma base_values_some_isValueError (fs : FileSystem) (s : Slice2SeriesSpecifier)
    (files : List String) (fmt : String)
    (hil : s.input_file_list = PyVal.list (List.map PyVal.str files))
    (hfmt : s.netcdf_format = PyVal.str fmt)
    (e : PyErr) (h : Specifier.validate_values fs s = some e) :
    ∃ m, e = PyErr.valueError m := by
  rw [base_validate_values_eq fs s files fmt hil hfmt] at h
  split at h
  · exact ⟨_, (Option.some.inj h).symm⟩
  · split at h
    · exact ⟨_, (Option.some.inj h).symm⟩
    · split at h
      · exact Option.noConfusion h
      · exact ⟨_, (Option.some.inj h).symm⟩

/-- A concrete filesystem for the witnesses: one input file `in0.nc`, one
directory `/data`, paths already absolute (`abspath` is the identity, so
it is trivially idempotent), and `dirname` sending `/data/out_` to
`/data`. -/
def sampleFS : FileSystem :=
  { isfile := fun p => p == "in0.nc"
    isdir := fun d => d == "/data"
    abspath := fun p => p
    dirname := fun p => if p == "/data/out_" then "/data" else "/" }

/-- A concrete specifier that `validate()` accepts under `sampleFS`. -/
def sampleSpec : Slice2SeriesSpecifier :=
  { specifier_type := "undetermined"
    input_file_list := PyVal.list [PyVal.str "in0.nc"]
    netcdf_format := PyVal.str "netcdf"
    output_file_prefix := PyVal.str "/data/out_"
    output_file_suffix := PyVal.str "out"
    time_variant_metadata := PyVal.list [] }

/-- C9: every call to `validate()`, raising or not, leaves
`input_file_list`, `netcdf_format`, `specifier_type` and
`time_variant_metadata` unchanged; only `output_file_prefix` and
`output_file_suffix` are ever mutated (they are the only other fields of
the object). -/
theorem validate_frame (fs : FileSystem) (s : Slice2SeriesSpecifier) :
    ((Slice2SeriesSpecifier.validate fs s).1).input_file_list = s.input_file_list ∧
    ((Slice2SeriesSpecifier.validate fs s).1).netcdf_format = s.netcdf_format ∧
    ((Slice2SeriesSpecifier.validate fs s).1).specifier_type = s.specifier_type ∧
    ((Slice2SeriesSpecifier.validate fs s).1).time_variant_metadata =
      s.time_variant_metadata := by
  unfold Slice2SeriesSpecifier.validate
  cases ht : Slice2SeriesSpecifier.validate_types s with
  | some e => exact ⟨rfl, rfl, rfl, rfl⟩
  | none =>
    obtain ⟨files, fmt, pfx, sfx, md, hil, hfmt, hpfx, hsfx, hmd⟩ :=
      proj_of_hasValidTypes s ((validate_types_none_iff s).mp ht)
    rw [validate_values_eq fs s pfx sfx hpfx hsfx]
    cases hbv : Specifier.validate_values fs s with
    | some e => exact ⟨rfl, rfl, rfl, rfl⟩
    | none =>
      by_cases hdir : fs.isdir (fs.dirname (fs.abspath pfx)) = true
      · simp [hdir]
      · simp [hdir]

/-- C10: `validate()` is atomic on failure: whenever it raises, the
returned state is exactly the state before the call (the prefix rewrite
happens only after the directory check passed, and the suffix fixup that
follows cannot raise). -/
theorem validate_atomic_on_failure (fs : FileSystem)
    (s : Slice2SeriesSpecifier) (e : PyErr)
    (h : (Slice2SeriesSpecifier.validate fs s).2 = some e) :
    (Slice2SeriesSpecifier.validate fs s).1 = s := by
  unfold Slice2SeriesSpecifier.validate at h ⊢
  cases ht : Slice2SeriesSpecifier.validate_types s with
  | some e' => rfl
  | none =>
    rw [ht] at h
    obtain ⟨files, fmt, pfx, sfx, md, hil, hfmt, hpfx, hsfx, hmd⟩ :=
      proj_of_hasValidTypes s ((validate_types_none_iff s).mp ht)
    rw [validate_values_eq fs s pfx sfx hpfx hsfx] at h ⊢
    cases hbv : Specifier.validate_values fs s with
    | some e' => rfl
    | none =>
      rw [hbv] at h
      by_cases hdir : fs.isdir (fs.dirname (fs.abspath pfx)) = true
      · simp [hdir] at h
      · simp [hdir]

/-- C10 witness: a failing call (empty input list) returns the unchanged
state. -/
theorem validate_atomic_on_failure_witness :
    (Slice2SeriesSpecifier.validate sampleFS
      { sampleSpec with input_file_list := PyVal.list [] }).1 =
      { sampleSpec with input_file_list := PyVal.list [] } :=
  validate_atomic_on_failure sampleFS
    { sampleSpec with input_file_list := PyVal.list [] }
    (PyErr.valueError "There must be at least one input file given.") rfl

/-- C1: contrary to the claim, `specifier_type` does NOT equal
"slice-to-series" after construction.  The derived constructor assigns
"slice-to-series" first and only then calls the base constructor, which
overwrites the field with "undetermined"; so both the factory result and
any direct construction carry "undetermined". -/
theorem specifier_type_after_construction :
    ((create_specifier (PyVal.str "slice-to-series") {}).map
        (fun s => s.specifier_type) = Except.ok "undetermined") ∧
    (∀ a b c d e : PyVal,
        (Slice2SeriesSpecifier.init a b c d e).specifier_type = "undetermined") :=
  ⟨rfl, fun _ _ _ _ _ => rfl⟩

/-- C2: the factory raises `TypeError` exactly on non-string tags, raises
`ValueError` exactly on strings other than "slice-to-series", and on
"slice-to-series" returns the `Slice2SeriesSpecifier` built from the
forwarded keyword arguments (absent ones defaulted). -/
theorem create_specifier_dispatch (v : PyVal) (kw : SpecKwargs) :
    ((∃ m, create_specifier v kw = Except.error (PyErr.typeError m)) ↔
        v.isStr = false) ∧
    ((∃ m, create_specifier v kw = Except.error (PyErr.valueError m)) ↔
        ∃ t, v = PyVal.str t ∧ t ≠ "slice-to-series") ∧
    (v = PyVal.str "slice-to-series" →
      create_specifier v kw = Except.ok (Slice2SeriesSpecifier.init
        (kw.infiles.getD (PyVal.list []))
        (kw.ncfmt.getD (PyVal.str "netcdf4c"))
        (kw.pfx.getD (PyVal.str "tseries."))
        (kw.suffix.getD (PyVal.str ".nc"))
        (kw.metadata.getD (PyVal.list [])))) := by
  cases v with
  | str t =>
    by_cases ht : t = "slice-to-series"
    · subst ht
      refine ⟨?_, ?_, ?_⟩
      · simp [create_specifier, PyVal.isStr]
      · simp [create_specifier]
      · intro _
        simp [create_specifier]
    · refine ⟨?_, ?_, ?_⟩
      · simp [create_specifier, PyVal.isStr, ht]
      · simp [create_specifier, ht]
      · intro hcon
        exact absurd (PyVal.str.inj hcon) ht
  | list l =>
    refine ⟨?_, ?_, ?_⟩
    · simp [create_specifier, PyVal.isStr]
    · simp [create_specifier]
    · intro hcon
      exact PyVal.noConfusion hcon
  | int n =>
    refine ⟨?_, ?_, ?_⟩
    · simp [create_specifier, PyVal.isStr]
    · simp [create_specifier]
    · intro hcon
      exact PyVal.noConfusion hcon

/-- C3: on a fully valid instance — a non-empty list of existing input
files, an admissible format tag, a prefix whose absolute-path parent
directory exists, any suffix, any string metadata list — `validate()`
completes without raising. -/
theorem validate_ok_on_valid_input (fs : FileSystem) (s : Slice2SeriesSpecifier)
    (files : List String) (fmt pfx sfx : String) (md : List String)
    (hil : s.input_file_list = PyVal.list (List.map PyVal.str files))
    (hne : files ≠ [])
    (hex : ∀ f ∈ files, fs.isfile f = true)
    (hfmt : s.netcdf_format = PyVal.str fmt)
    (hvfmt : fmt ∈ valid_formats)
    (hpfx : s.output_file_prefix = PyVal.str pfx)
    (hdir : fs.isdir (fs.dirname (fs.abspath pfx)) = true)
    (hsfx : s.output_file_suffix = PyVal.str sfx)
    (hmd : s.time_variant_metadata = PyVal.list (List.map PyVal.str md)) :
    (Slice2SeriesSpecifier.validate fs s).2 = none := by
  have h := (validate_ok_iff fs s (normalized fs s pfx sfx)).mpr
    ⟨files, fmt, pfx, sfx, md, hil, hfmt, hpfx, hsfx, hmd, hne, hex,
      (valid_formats_contains_iff fmt).mpr hvfmt, hdir, rfl⟩
  rw [h]

/-- C3 witness: `validate()` accepts the sample specifier. -/
theorem validate_ok_on_valid_input_witness :
    (Slice2SeriesSpecifier.validate sampleFS sampleSpec).2 = none :=
  validate_ok_on_valid_input sampleFS sampleSpec
    ["in0.nc"] "netcdf" "/data/out_" "out" []
    rfl (by decide) (by decide) rfl (by decide) rfl (by decide) rfl rfl

/-- C4: `validate()` raises a `TypeError` exactly when one of the six type
conditions fails (`hasValidTypes` enumerates them), and whenever it raises
a `ValueError` all six type conditions hold — the type phase runs first. -/
theorem validate_typeError_iff (fs : FileSystem) (s : Slice2SeriesSpecifier) :
    ((∃ m, (Slice2SeriesSpecifier.validate fs s).2 = some (PyErr.typeError m)) ↔
        hasValidTypes s = false) ∧
    (∀ m, (Slice2SeriesSpecifier.validate fs s).2 = some (PyErr.valueError m) →
        hasValidTypes s = true) := by
  have main : hasValidTypes s = true →
      ∀ m, (Slice2SeriesSpecifier.validate fs s).2 ≠ some (PyErr.typeError m) := by
    intro htyp m hcon
    obtain ⟨files, fmt, pfx, sfx, md, hil, hfmt, hpfx, hsfx, hmd⟩ :=
      proj_of_hasValidTypes s htyp
    unfold Slice2SeriesSpecifier.validate at hcon
    rw [(validate_types_none_iff s).mpr htyp] at hcon
    rw [validate_values_eq fs s pfx sfx hpfx hsfx] at hcon
    cases hbv : Specifier.validate_values fs s with
    | some e =>
      rw [hbv] at hcon
      obtain ⟨m', he⟩ := base_values_some_isValueError fs s files fmt hil hfmt e hbv
      have h2 : some e = some (PyErr.typeError m) := hcon
      rw [he] at h2
      exact PyErr.noConfusion (Option.some.inj h2)
    | none =>
      rw [hbv] at hcon
      by_cases hdir : fs.isdir (fs.dirname (fs.abspath pfx)) = true
      · simp [hdir] at hcon
      · simp [hdir] at hcon
  constructor
  · constructor
    · rintro ⟨m, hm⟩
      cases hft : hasValidTypes s with
      | false => rfl
      | true => exact absurd hm (main hft m)
    · intro hfalse
      cases validate_types_cases s with
      | inl hnone =>
        rw [validate_types_none_iff, hfalse] at hnone
        exact Bool.noConfusion hnone
      | inr hsome =>
        obtain ⟨m, hm⟩ := hsome
        refine ⟨m, ?_⟩
        unfold Slice2SeriesSpecifier.validate
        rw [hm]
  · intro m hm
    cases hft : hasValidTypes s with
    | true => rfl
    | false =>
      cases validate_types_cases s with
      | inl hnone =>
        rw [validate_types_none_iff, hft] at hnone
        exact Bool.noConfusion hnone
      | inr hsome =>
        obtain ⟨m', hm'⟩ := hsome
        unfold Slice2SeriesSpecifier.validate at hm
        rw [hm'] at hm
        have h2 : some (PyErr.typeError m') = some (PyErr.valueError m) := hm
        exact PyErr.noConfusion (Option.some.inj h2)

/-- C5: on a well-typed instance, `validate()` raises a `ValueError`
exactly when the file list is empty, some listed file is missing, the
format tag is inadmissible, or the prefix's implied directory is absent;
the checks run in that order and stop at the first violation (each
conjunct pins the exact error once the earlier checks pass, and the
missing-file message names the first missing path). -/
theorem validate_valueError_iff (fs : FileSystem) (s : Slice2SeriesSpecifier)
    (files : List String) (fmt pfx sfx : String) (md : List String)
    (hil : s.input_file_list = PyVal.list (List.map PyVal.str files))
    (hfmt : s.netcdf_format = PyVal.str fmt)
    (hpfx : s.output_file_prefix = PyVal.str pfx)
    (hsfx : s.output_file_suffix = PyVal.str sfx)
    (hmd : s.time_variant_metadata = PyVal.list (List.map PyVal.str md)) :
    ((∃ m, (Slice2SeriesSpecifier.validate fs s).2 = some (PyErr.valueError m)) ↔
        (files = [] ∨ (∃ f ∈ files, fs.isfile f = false) ∨
          fmt ∉ valid_formats ∨
          fs.isdir (fs.dirname (fs.abspath pfx)) = false)) ∧
    (files = [] →
      (Slice2SeriesSpecifier.validate fs s).2 =
        some (PyErr.valueError "There must be at least one input file given.")) ∧
    (∀ f, files.find? (fun x => !fs.isfile x) = some f →
      (Slice2SeriesSpecifier.validate fs s).2 =
        some (PyErr.valueError ("Input file " ++ f ++ " is not a regular file"))) ∧
    (files ≠ [] → (∀ f ∈ files, fs.isfile f = true) → fmt ∉ valid_formats →
      (Slice2SeriesSpecifier.validate fs s).2 =
        some (PyErr.valueError
          ("Output NetCDF file format " ++ fmt ++ " is not valid"))) ∧
    (files ≠ [] → (∀ f ∈ files, fs.isfile f = true) → fmt ∈ valid_formats →
      fs.isdir (fs.dirname (fs.abspath pfx)) = false →
      (Slice2SeriesSpecifier.validate fs s).2 =
        some (PyErr.valueError
          ("Output directory " ++ fs.dirname (fs.abspath pfx) ++
            " implied in output prefix " ++ pfx ++ " is not valid"))) := by
  unfold Slice2SeriesSpecifier.validate
  rw [(validate_types_none_iff s).mpr
        (hasValidTypes_of_proj s files fmt pfx sfx md hil hfmt hpfx hsfx hmd),
      validate_values_eq fs s pfx sfx hpfx hsfx,
      base_validate_values_eq fs s files fmt hil hfmt]
  refine ⟨?_, ?_, ?_, ?_, ?_⟩
  · constructor
    · rintro ⟨m, hm⟩
      by_cases h0 : files = []
      · exact Or.inl h0
      · cases hf : files.find? (fun x => !fs.isfile x) with
        | some f =>
          refine Or.inr (Or.inl ⟨f, List.mem_of_find?_eq_some hf, ?_⟩)
          have := List.find?_some hf
          simpa using this
        | none =>
          by_cases hin : fmt ∈ valid_formats
          · by_cases hdir : fs.isdir (fs.dirname (fs.abspath pfx)) = true
            · simp [h0, hf, hin, hdir] at hm
            · refine Or.inr (Or.inr (Or.inr ?_))
              simpa using hdir
          · exact Or.inr (Or.inr (Or.inl hin))
    · intro hdisj
      by_cases h0 : files = []
      · exact ⟨"There must be at least one input file given.", by simp [h0]⟩
      · cases hf : files.find? (fun x => !fs.isfile x) with
        | some f =>
          exact ⟨"Input file " ++ f ++ " is not a regular file", by simp [h0, hf]⟩
        | none =>
          have hall : ∀ f ∈ files, fs.isfile f = true := by
            intro f hfm
            have := List.find?_eq_none.mp hf f hfm
            simpa using this
          by_cases hin : fmt ∈ valid_formats
          · by_cases hdir : fs.isdir (fs.dirname (fs.abspath pfx)) = true
            · exfalso
              rcases hdisj with h | ⟨f, hfm, hff⟩ | h | h
              · exact h0 h
              · rw [hall f hfm] at hff
                exact Bool.noConfusion hff
              · exact h hin
              · rw [hdir] at h
                exact Bool.noConfusion h
            · exact ⟨"Output directory " ++ fs.dirname (fs.abspath pfx) ++
                " implied in output prefix " ++ pfx ++ " is not valid",
                by simp [h0, hf, hin, hdir]⟩
          · exact ⟨"Output NetCDF file format " ++ fmt ++ " is not valid",
              by simp [h0, hf, hin]⟩
  · intro h0
    simp [h0]
  · intro f hf
    have h0 : files ≠ [] := by
      intro h
      rw [h] at hf
      exact Option.noConfusion hf
    simp [h0, hf]
  · intro h0 hall hin
    have hf : files.find? (fun x => !fs.isfile x) = none :=
      List.find?_eq_none.mpr (fun x hx => by simp [hall x hx])
    simp [h0, hf, hin]
  · intro h0 hall hin hdir
    have hf : files.find? (fun x => !fs.isfile x) = none :=
      List.find?_eq_none.mpr (fun x hx => by simp [hall x hx])
    simp [h0, hf, hin, hdir]

/-- C5 witness: with one existing input file and a bogus format tag,
`validate()` raises the format `ValueError`. -/
theorem validate_valueError_iff_witness :
    (Slice2SeriesSpecifier.validate sampleFS
      { sampleSpec with netcdf_format := PyVal.str "bogus" }).2 =
      some (PyErr.valueError "Output NetCDF file format bogus is not valid") :=
  (validate_valueError_iff sampleFS
      { sampleSpec with netcdf_format := PyVal.str "bogus" }
      ["in0.nc"] "bogus" "/data/out_" "out" []
      rfl rfl rfl rfl rfl).2.2.2.1 (by decide) (by decide) (by decide)

/-- The state `validate()` leaves behind on the sample specifier: the
suffix gains `.nc`; the prefix, already absolute under `sampleFS`, keeps
its value. -/
def sampleValidated : Slice2SeriesSpecifier :=
  { sampleSpec with output_file_suffix := PyVal.str "out.nc" }

/-- C6: after a successful `validate()` the suffix field ends in `.nc`:
the literal `.nc` is appended when the suffix did not already end so
(a mutation, never a failure), and the suffix is left unchanged when it
did. -/
theorem validate_suffix_normalization (fs : FileSystem)
    (s s' : Slice2SeriesSpecifier) (sfx : String)
    (hsfx : s.output_file_suffix = PyVal.str sfx)
    (hok : Slice2SeriesSpecifier.validate fs s = (s', none)) :
    (endsDotNc sfx → s'.output_file_suffix = PyVal.str sfx) ∧
    (¬ endsDotNc sfx → s'.output_file_suffix = PyVal.str (sfx ++ ".nc")) ∧
    (∃ t, s'.output_file_suffix = PyVal.str t ∧ endsDotNc t) := by
  obtain ⟨files, fmt, pfx, sfx', md, hil, hfmt, hpfx, hsfx', hmd,
    h0, hall, hc, hdir, rfl⟩ := (validate_ok_iff fs s s').mp hok
  have hse : sfx' = sfx := by
    rw [hsfx] at hsfx'
    exact (PyVal.str.inj hsfx').symm
  subst hse
  refine ⟨?_, ?_, ?_⟩
  · intro hend
    have hlt : lastThree sfx' = ".nc" := (lastThree_eq_nc_iff sfx').mpr hend
    simp [normalized, hlt]
  · intro hend
    have hlt : lastThree sfx' ≠ ".nc" := fun h => hend ((lastThree_eq_nc_iff sfx').mp h)
    simp [normalized, hlt]
  · by_cases hlt : lastThree sfx' = ".nc"
    · exact ⟨sfx', by simp [normalized, hlt], (lastThree_eq_nc_iff sfx').mp hlt⟩
    · exact ⟨sfx' ++ ".nc", by simp [normalized, hlt], endsDotNc_append sfx'⟩

/-- C6 witness: the suffix "out" becomes "out.nc". -/
theorem validate_suffix_normalization_witness :
    sampleValidated.output_file_suffix = PyVal.str ("out" ++ ".nc") :=
  (validate_suffix_normalization sampleFS sampleSpec sampleValidated "out"
      rfl rfl).2.1 (by decide)

/-- C7: a successful `validate()` rewrites the prefix field to its
absolute form, and on a well-typed instance whose implied output
directory does not exist, `validate()` raises a `ValueError`. -/
theorem validate_prefix_normalization (fs : FileSystem)
    (s : Slice2SeriesSpecifier) (pfx : String)
    (hpfx : s.output_file_prefix = PyVal.str pfx) :
    (∀ s', Slice2SeriesSpecifier.validate fs s = (s', none) →
      s'.output_file_prefix = PyVal.str (fs.abspath pfx)) ∧
    (hasValidTypes s = true →
      fs.isdir (fs.dirname (fs.abspath pfx)) = false →
      ∃ m, (Slice2SeriesSpecifier.validate fs s).2 =
        some (PyErr.valueError m)) := by
  constructor
  · intro s' hok
    obtain ⟨files, fmt, pfx', sfx, md, hil, hfmt, hpfx', hsfx, hmd,
      h0, hall, hc, hdir, rfl⟩ := (validate_ok_iff fs s s').mp hok
    have hpe : pfx' = pfx := by
      rw [hpfx] at hpfx'
      exact (PyVal.str.inj hpfx').symm
    simp [normalized, hpe]
  · intro htyp hdir
    obtain ⟨files, fmt, pfx', sfx, md, hil, hfmt, hpfx', hsfx, hmd⟩ :=
      proj_of_hasValidTypes s htyp
    unfold Slice2SeriesSpecifier.validate
    rw [(validate_types_none_iff s).mpr htyp,
        validate_values_eq fs s pfx sfx hpfx hsfx,
        base_validate_values_eq fs s files fmt hil hfmt]
    by_cases h0 : files = []
    · exact ⟨"There must be at least one input file given.", by simp [h0]⟩
    · cases hf : files.find? (fun x => !fs.isfile x) with
      | some f =>
        exact ⟨"Input file " ++ f ++ " is not a regular file", by simp [h0, hf]⟩
      | none =>
        by_cases hin : fmt ∈ valid_formats
        · exact ⟨"Output directory " ++ fs.dirname (fs.abspath pfx) ++
            " implied in output prefix " ++ pfx ++ " is not valid",
            by simp [h0, hf, hin, hdir]⟩
        · exact ⟨"Output NetCDF file format " ++ fmt ++ " is not valid",
            by simp [h0, hf, hin]⟩

/-- C7 witness: the sample prefix is rewritten to its absolute form. -/
theorem validate_prefix_normalization_witness :
    sampleValidated.output_file_prefix =
      PyVal.str (sampleFS.abspath "/data/out_") :=
  (validate_prefix_normalization sampleFS sampleSpec "/data/out_" rfl).1
    sampleValidated rfl

/-- C8: `validate()` is idempotent: with the same filesystem (and
`os.path.abspath` idempotent, as it is), a second call on a state a
successful call produced raises nothing and changes no field. -/
theorem validate_idempotent (fs : FileSystem) (s s₁ : Slice2SeriesSpecifier)
    (hidem : fs.AbspathIdem)
    (h : Slice2SeriesSpecifier.validate fs s = (s₁, none)) :
    Slice2SeriesSpecifier.validate fs s₁ = (s₁, none) := by
  obtain ⟨files, fmt, pfx, sfx, md, hil, hfmt, hpfx, hsfx, hmd,
    h0, hall, hc, hdir, rfl⟩ := (validate_ok_iff fs s s₁).mp h
  have hS : lastThree (if lastThree sfx = ".nc" then sfx else sfx ++ ".nc") = ".nc" := by
    by_cases hlt : lastThree sfx = ".nc"
    · simp [hlt]
    · rw [if_neg hlt]
      exact (lastThree_eq_nc_iff _).mpr (endsDotNc_append sfx)
  apply (validate_ok_iff fs (normalized fs s pfx sfx) (normalized fs s pfx sfx)).mpr
  refine ⟨files, fmt, fs.abspath pfx,
    (if lastThree sfx = ".nc" then sfx else sfx ++ ".nc"), md,
    ?_, ?_, ?_, ?_, ?_, h0, hall, hc, ?_, ?_⟩
  · simp [normalized, hil]
  · simp [normalized, hfmt]
  · simp [normalized]
  · simp [normalized]
  · simp [normalized, hmd]
  · rw [hidem pfx]
    exact hdir
  · unfold normalized
    simp [hS, hidem pfx]

/-- C8 witness: re-validating the sample's validated state returns it
unchanged with no exception. -/
theorem validate_idempotent_witness :
    Slice2SeriesSpecifier.validate sampleFS sampleValidated =
      (sampleValidated, none) :=
  validate_idempotent sampleFS sampleSpec sampleValidated
    (fun _ => rfl) rfl
